import Mathlib

/-!
Verification of `image_compare.py` (LocalTextureSearch).

Shallow embedding: the image-processing primitives (PIL decode/resize,
cv2 imdecode/cvtColor, SIFT descriptor extraction, brute-force matching)
are external black boxes and are modelled as an oracle `Env`; the logic of
the program (the per-candidate scan loop with its skip/except structure,
the metric branch selection, the MSE computation, the log-line formatting,
the list partitioning for worker processes) is translated directly from
the source.
-/

/-- A normalized image: after `img.resize((1024,1024))` and
`cv2.cvtColor(..., cv2.COLOR_BGR2GRAY)` the program holds a 2-D
single-channel intensity array.  We model it as dimensions plus an
intensity function; pixel values are rationals (the source casts to
float before arithmetic). -/
structure NormImage where
  rows : Nat
  cols : Nat
  pix : Nat → Nat → ℚ

/-- `mse` from the source:
`err = np.sum((image_a.astype("float") - image_b.astype("float")) ** 2)`;
`err /= float(image_a.shape[0] * image_a.shape[1])`.
The sum ranges over the elementwise difference (same-shape arrays) and the
divisor uses `image_a`'s shape. -/
def mse (image_a image_b : NormImage) : ℚ :=
  (∑ r ∈ Finset.range image_a.rows, ∑ c ∈ Finset.range image_a.cols,
      (image_a.pix r c - image_b.pix r c) ^ 2) /
    ((image_a.rows : ℚ) * (image_a.cols : ℚ))

/-- SIFT descriptors: `sift.detectAndCompute(img, None)[1]`, a matrix of
feature vectors.  Opaque to the program except through `bf.match`. -/
def Descr : Type := List (List ℚ)

/-- Outcome of the candidate-loading pipeline
(`Image.open` / `resize` / `save` / `cv2.imdecode` / `cv2.cvtColor`).
The three error constructors are exactly the exception classes the
source catches (`FileNotFoundError`, `UnidentifiedImageError`,
`PermissionError`); `errUncaught` stands for any other exception raised
while loading, which the source does not catch and which therefore kills
the worker. -/
inductive LoadResult where
  | ok (img : NormImage)
  | errFileNotFound
  | errUnidentified
  | errPermission
  | errUncaught

/-- The external image-processing library, consumed as a black box:
`load` is the whole per-file normalization pipeline, `descriptors` is
`sift.detectAndCompute(·, None)[1]` (`none` when no keypoints are found,
i.e. the descriptor matrix is `None`), `bfMatch a b` is
`len(bf.match(a, b))` with `none` standing for a raised `cv2.error`
(which is also what `bf.match` does when handed a `None` descriptor
matrix). -/
structure Env where
  load : String → LoadResult
  descriptors : NormImage → Option Descr
  bfMatch : Descr → Descr → Option Nat

/-- The keyword arguments of `image_compare` / the `argument_dict` built
by `main` (the Run Configuration of the spec). -/
structure RunConfig where
  filename_list : List String
  compare_file : String
  log_filename : String
  verbose : Bool
  compare : Bool
  highlowres : Bool
deriving DecidableEq, Repr

/-- One append to a log file: `open(path, "a")` followed by
`f.write(line)`. -/
structure LogWrite where
  path : String
  line : String
deriving DecidableEq, Repr

/-- Observable outcome of one Scan Driver run: the log appends it
performed in order, the final value of the `processed` counter, and
whether the loop died on an uncaught exception. -/
structure ScanOutcome where
  writes : List LogWrite
  processed : Nat
  aborted : Bool
deriving DecidableEq, Repr

/-- The log line written in compare (SIFT) mode:
`f.write(file_name + " " + " SIFT Matches:" + str(len(matches)) + "\n")`. -/
def siftLine (file_name : String) (n : Nat) : String :=
  file_name ++ " " ++ " SIFT Matches:" ++ toString n ++ "\n"

/-- The log line written in highlowres (MSE) mode:
`f.write(file_name + " " + str(comparison_mse) + " \n")`. -/
def mseLine (file_name : String) (comparison_mse : ℚ) : String :=
  file_name ++ " " ++ toString comparison_mse ++ " \n"

/-- The metric/logging part of the loop body of `image_compare` for one
successfully loaded candidate `tex_img`: the
`if compare: ... elif highlowres: ...` block.  Returns the log appends
it performs (the empty list when nothing crosses the threshold or the
matcher raises `cv2.error`, which the source catches with `pass`). -/
def metricStep (env : Env) (cfg : RunConfig) (key_img : NormImage)
    (file_name : String) (tex_img : NormImage) : List LogWrite :=
  if cfg.compare then
    match env.descriptors key_img, env.descriptors tex_img with
    | some descriptors_1, some descriptors_2 =>
      match env.bfMatch descriptors_1 descriptors_2 with
      | some n =>
        if n > 400 then [⟨cfg.log_filename, siftLine file_name n⟩] else []
      | none => []
    | _, _ => []
  else if cfg.highlowres then
    if mse key_img tex_img < 1000 then
      [⟨cfg.log_filename, mseLine file_name (mse key_img tex_img)⟩]
    else []
  else []

/-- The candidate loop of `image_compare` (`for file_name in
filename_list:`).  `processed += 1` precedes the `try` block, so it runs
for every candidate, skipped or not.  The three caught exceptions
`continue`; `errUncaught` propagates and kills the worker, keeping the
writes flushed so far. -/
def scanFiles (env : Env) (cfg : RunConfig) (key_img : NormImage) :
    List String → ScanOutcome
  | [] => ⟨[], 0, false⟩
  | file_name :: rest =>
    match env.load file_name with
    | .errFileNotFound =>
      let r := scanFiles env cfg key_img rest
      ⟨r.writes, r.processed + 1, r.aborted⟩
    | .errUnidentified =>
      let r := scanFiles env cfg key_img rest
      ⟨r.writes, r.processed + 1, r.aborted⟩
    | .errPermission =>
      let r := scanFiles env cfg key_img rest
      ⟨r.writes, r.processed + 1, r.aborted⟩
    | .errUncaught => ⟨[], 1, true⟩
    | .ok tex_img =>
      let ws := metricStep env cfg key_img file_name tex_img
      let r := scanFiles env cfg key_img rest
      ⟨ws ++ r.writes, r.processed + 1, r.aborted⟩

/-- `image_compare` end to end: load and grayscale the key image (the
two caught exceptions there `exit(1)`, modelled as `none` — no scan
happens), then run the candidate loop. -/
def image_compare (env : Env) (cfg : RunConfig) : Option ScanOutcome :=
  match env.load cfg.compare_file with
  | .ok key_img => some (scanFiles env cfg key_img cfg.filename_list)
  | _ => none

/-- `share_of_files` from `multithreading_compare`:
`mod = len(filename_list) % use_threading`;
`share_of_files = round((len(filename_list) - mod) / use_threading)`.
`len - mod` is an exact multiple of `use_threading`, so the float
division is exact and `round` of it is the integer quotient. -/
def share_of_files (len use_threading : Nat) : Nat :=
  (len - len % use_threading) / use_threading

/-- The chunk-building loop of `multithreading_compare`
(`for i in range(1, use_threading + 1):` with Python slices
`filename_list[index_1:index_2]` for `i < use_threading` and
`filename_list[index_1:]` for the last `i`); a Python slice `l[a:b]`
is `(l.drop a).take (b - a)` and `l[a:]` is `l.drop a`.  Here `j = i - 1`
ranges over `range use_threading`, and `i * s - (i - 1) * s = s`. -/
def filename_list_chunks (filename_list : List String) (use_threading : Nat) :
    List (List String) :=
  let s := share_of_files filename_list.length use_threading
  (List.range use_threading).map fun j =>
    if j + 1 < use_threading then (filename_list.drop (j * s)).take s
    else filename_list.drop (j * s)

/-- The process-spawning part of `multithreading_compare`: the source
mutates `argument_dict["filename_list"]` to chunk `i` and then constructs
and starts `process_{i+1}` (`multiprocessing.Process` snapshots its
`kwargs`, and `start()` runs before the next mutation), guarded by
`use_threading >= 2`, `>= 3`, `>= 4`.  We return the list of
configurations the started workers receive, in start order. -/
def multithreading_compare (filename_list : List String)
    (argument_dict : RunConfig) (use_threading : Nat) : List RunConfig :=
  let chunks := filename_list_chunks filename_list use_threading
  (if 2 ≤ use_threading then
    [{ argument_dict with filename_list := chunks.getD 0 [] },
     { argument_dict with filename_list := chunks.getD 1 [] }]
   else []) ++
  (if 3 ≤ use_threading then
    [{ argument_dict with filename_list := chunks.getD 2 [] }] else []) ++
  (if 4 ≤ use_threading then
    [{ argument_dict with filename_list := chunks.getD 3 [] }] else [])

/-- Log-file naming in `main`:
`argument_dict["log_filename"] = f"{time_prefix}_matches.txt"`. -/
def logName (tstamp : String) : String := tstamp ++ "_matches.txt"

/-- The tail of `main` for a threaded run: the log filename is set on
`argument_dict` from the run's start timestamp, and only then is
`multithreading_compare` called with the full candidate list. -/
def mainSpawn (tstamp : String) (argument_dict : RunConfig)
    (filename_list : List String) (use_threading : Nat) : List RunConfig :=
  multithreading_compare filename_list
    { argument_dict with log_filename := logName tstamp } use_threading

/-- A score token as the spec describes it: a plain number in MSE mode or
a prefixed count in structural mode — in either case a nonempty run of
characters containing no space and no newline. -/
def plainToken (cs : List Char) : Bool :=
  !cs.isEmpty && cs.all (fun c => c != ' ' && c != '\n')

/-- Formalization of the spec's Match Record format: the line is exactly
`<candidate_path> <score>\n` — the candidate path, a single separating
space, the score token, then the final newline. -/
def recordForm (path line : String) : Bool :=
  let l := line.data
  let p := path.data ++ [' ']
  (l.take p.length == p) && ((l.drop p.length).getLast? == some '\n') &&
    plainToken (l.drop p.length).dropLast

/-- The distinct log files a scan opened (append-mode `open` creates the
file if absent, so these are exactly the log files the run creates or
touches). -/
def filesOpened (o : ScanOutcome) : List String :=
  (o.writes.map LogWrite.path).dedup

/-- Concrete 1×1 normalized image used as a key in witnesses. -/
def keyImg : NormImage := ⟨1, 1, fun _ _ => 0⟩

/-- Concrete candidate image identical to `keyImg` (MSE 0, a match). -/
def texSame : NormImage := ⟨1, 1, fun _ _ => 0⟩

/-- Concrete candidate image far from `keyImg` (MSE 4000000, no match). -/
def texFar : NormImage := ⟨1, 1, fun _ _ => 2000⟩

/-- Concrete oracle for witnesses: a readable key and two readable
candidates, one path for each caught exception class, SIFT finding no
keypoints anywhere. -/
def env0 : Env where
  load := fun f =>
    if f = "key.png" then .ok keyImg
    else if f = "same.png" then .ok texSame
    else if f = "far.png" then .ok texFar
    else if f = "missing.png" then .errFileNotFound
    else if f = "notimage.txt" then .errUnidentified
    else if f = "noperm.png" then .errPermission
    else .errUncaught
  descriptors := fun _ => none
  bfMatch := fun _ _ => none

/-- Concrete timestamp-derived log filename, as `main` builds it. -/
def logPath : String := logName "01_01_25_00_00_00AM"

/-- Concrete highlowres-mode configuration. -/
def cfgH : RunConfig :=
  ⟨["same.png"], "key.png", logPath, false, false, true⟩

/-- Concrete compare-mode configuration. -/
def cfgC : RunConfig :=
  ⟨["same.png"], "key.png", logPath, false, true, false⟩

/-- Concrete configuration with both mode flags set. -/
def cfgBoth : RunConfig :=
  ⟨["same.png"], "key.png", logPath, false, true, true⟩

/-- Concrete configuration with both mode flags at their defaults. -/
def cfgNone : RunConfig :=
  ⟨["same.png"], "key.png", logPath, false, false, false⟩

/-- Concrete highlowres-mode configuration whose sole candidate is a
missing file. -/
def cfgM : RunConfig :=
  ⟨["missing.png"], "key.png", logPath, false, false, true⟩

/-- Concrete highlowres-mode configuration over an empty candidate
directory. -/
def cfgE : RunConfig :=
  ⟨[], "key.png", logPath, false, false, true⟩

lemma share_of_files_eq (len W : Nat) (hW : W ≠ 0) :
    share_of_files len W = len / W := by
  have h := Nat.div_add_mod len W
  unfold share_of_files
  have h2 : len - len % W = W * (len / W) := by omega
  rw [h2, Nat.mul_div_cancel_left _ (Nat.pos_of_ne_zero hW)]

lemma flatten_take_chunks (l : List String) (s : Nat) (k : Nat) :
    ((List.range k).map (fun j => (l.drop (j * s)).take s)).flatten
      = l.take (k * s) := by
  induction k with
  | zero => simp
  | succ k ih =>
    rw [List.range_succ, List.map_append, List.flatten_append, ih]
    simp only [List.map_cons, List.map_nil, List.flatten_cons, List.flatten_nil,
      List.append_nil]
    rw [← List.take_add]
    congr 1
    ring

lemma filename_list_chunks_length (l : List String) (W : Nat) :
    (filename_list_chunks l W).length = W := by
  simp [filename_list_chunks]

lemma filename_list_chunks_join (l : List String) (W : Nat) (hW : W ≠ 0) :
    (filename_list_chunks l W).flatten = l := by
  obtain ⟨V, rfl⟩ : ∃ V, W = V + 1 := ⟨W - 1, by omega⟩
  simp only [filename_list_chunks]
  rw [List.range_succ, List.map_append, List.flatten_append]
  have h1 : ((List.range V).map fun j =>
      if j + 1 < V + 1 then
        (l.drop (j * share_of_files l.length (V + 1))).take
          (share_of_files l.length (V + 1))
      else l.drop (j * share_of_files l.length (V + 1)))
      = (List.range V).map fun j =>
          (l.drop (j * share_of_files l.length (V + 1))).take
            (share_of_files l.length (V + 1)) := by
    apply List.map_congr_left
    intro j hj
    rw [List.mem_range] at hj
    rw [if_pos (by omega)]
  rw [h1, flatten_take_chunks]
  simp only [List.map_cons, List.map_nil, List.flatten_cons, List.flatten_nil,
    List.append_nil]
  rw [if_neg (by omega)]
  exact List.take_append_drop _ l

lemma filename_list_chunks_getD (l : List String) (W j : Nat) (hj : j < W) :
    (filename_list_chunks l W).getD j [] =
      if j + 1 < W then
        (l.drop (j * share_of_files l.length W)).take
          (share_of_files l.length W)
      else l.drop (j * share_of_files l.length W) := by
  have hlen : j < (filename_list_chunks l W).length := by
    rw [filename_list_chunks_length]; exact hj
  rw [List.getD_eq_getElem _ _ hlen]
  simp [filename_list_chunks, hj]

/-- C1: for every candidate list and worker count W ∈ {2,3,4},
`filename_list_chunks` yields W contiguous chunks whose concatenation is
the original list, the first W−1 chunks having size ⌊C/W⌋ and the last
having size C − (W−1)·⌊C/W⌋. -/
theorem partition_complete_and_sizes (l : List String) (W : Nat)
    (hW : W = 2 ∨ W = 3 ∨ W = 4) :
    (filename_list_chunks l W).length = W ∧
    (filename_list_chunks l W).flatten = l ∧
    (∀ j, j + 1 < W →
      ((filename_list_chunks l W).getD j []).length = l.length / W) ∧
    ((filename_list_chunks l W).getD (W - 1) []).length
      = l.length - (W - 1) * (l.length / W) := by
  have hW0 : W ≠ 0 := by rcases hW with rfl | rfl | rfl <;> simp
  have hs := share_of_files_eq l.length W hW0
  refine ⟨filename_list_chunks_length l W, filename_list_chunks_join l W hW0,
    ?_, ?_⟩
  · intro j hj
    rw [filename_list_chunks_getD l W j (by omega), if_pos hj, hs,
      List.length_take, List.length_drop]
    have h1 : (j + 1) * (l.length / W) ≤ W * (l.length / W) :=
      Nat.mul_le_mul_right _ (by omega)
    have h2 : l.length / W * W ≤ l.length := Nat.div_mul_le_self _ _
    have h3 : (j + 1) * (l.length / W) = j * (l.length / W) + l.length / W :=
      by ring
    have h4 : W * (l.length / W) = l.length / W * W := by ring
    omega
  · rw [filename_list_chunks_getD l W (W - 1) (by omega),
      if_neg (by omega), hs, List.length_drop]

/-- C1 witness: five candidates, four workers — chunk sizes [1,1,1,2]. -/
theorem partition_complete_and_sizes_witness :
    (filename_list_chunks ["a", "b", "c", "d", "e"] 4).length = 4 ∧
    (filename_list_chunks ["a", "b", "c", "d", "e"] 4).flatten
      = ["a", "b", "c", "d", "e"] ∧
    (∀ j, j + 1 < 4 →
      ((filename_list_chunks ["a", "b", "c", "d", "e"] 4).getD j []).length
        = (["a", "b", "c", "d", "e"] : List String).length / 4) ∧
    ((filename_list_chunks ["a", "b", "c", "d", "e"] 4).getD (4 - 1) []).length
      = (["a", "b", "c", "d", "e"] : List String).length
        - (4 - 1) * ((["a", "b", "c", "d", "e"] : List String).length / 4) :=
  partition_complete_and_sizes ["a", "b", "c", "d", "e"] 4 (Or.inr (Or.inr rfl))

/-- C9: MSE is symmetric on equal-dimension normalized images, and
MSE(A,A) = 0. -/
theorem mse_symm_and_self_zero (A B : NormImage)
    (hr : A.rows = B.rows) (hc : A.cols = B.cols) :
    mse A B = mse B A ∧ mse A A = 0 := by
  constructor
  · unfold mse
    rw [← hr, ← hc]
    congr 1
    apply Finset.sum_congr rfl
    intro r _
    apply Finset.sum_congr rfl
    intro c _
    ring
  · unfold mse
    simp

/-- C9 witness: concrete 1×1 images. -/
theorem mse_symm_and_self_zero_witness :
    mse keyImg texFar = mse texFar keyImg ∧ mse keyImg keyImg = 0 :=
  mse_symm_and_self_zero keyImg texFar rfl rfl

lemma mse_keyImg_texSame : mse keyImg texSame = 0 := by
  simp [mse, keyImg, texSame]

lemma env0_load_same : env0.load "same.png" = LoadResult.ok texSame := rfl

lemma metricStep_cfgH_same :
    metricStep env0 cfgH keyImg "same.png" texSame
      = [⟨logPath, "same.png 0 \n"⟩] := by
  unfold metricStep
  rw [mse_keyImg_texSame]
  norm_num [cfgH]
  rfl

lemma scanFiles_cfgH_eval :
    scanFiles env0 cfgH keyImg ["same.png"]
      = ⟨[⟨logPath, "same.png 0 \n"⟩], 1, false⟩ := by
  simp [scanFiles, env0_load_same, metricStep_cfgH_same]

/-- C2: in highlowres mode, a successfully normalized candidate yields
exactly one Match Record (appended to the configured log) when its MSE
against the key is strictly below 1000, and none when it is at or above
1000; the scan then continues with the remaining candidates. -/
theorem highlowres_threshold_iff (env : Env) (cfg : RunConfig)
    (key_img tex_img : NormImage) (file_name : String) (rest : List String)
    (hc : cfg.compare = false) (hh : cfg.highlowres = true)
    (hload : env.load file_name = LoadResult.ok tex_img) :
    (scanFiles env cfg key_img (file_name :: rest)).writes =
      (if mse key_img tex_img < 1000 then
        [⟨cfg.log_filename, mseLine file_name (mse key_img tex_img)⟩]
       else []) ++ (scanFiles env cfg key_img rest).writes := by
  simp [scanFiles, hload, metricStep, hc, hh]

/-- C2 witness: the 1×1 candidate identical to the key. -/
theorem highlowres_threshold_iff_witness :
    (scanFiles env0 cfgH keyImg ("same.png" :: [])).writes =
      (if mse keyImg texSame < 1000 then
        [⟨cfgH.log_filename, mseLine "same.png" (mse keyImg texSame)⟩]
       else []) ++ (scanFiles env0 cfgH keyImg []).writes :=
  highlowres_threshold_iff env0 cfgH keyImg texSame "same.png" [] rfl rfl rfl

/-- C3: a candidate whose load fails with any of the three caught
exception classes (missing file, unrecognizable image, permission
denied) is skipped silently: it appends no Match Record, does not abort
the worker, and the scan continues over the remaining candidates. -/
theorem unreadable_candidate_skipped (env : Env) (cfg : RunConfig)
    (key_img : NormImage) (file_name : String) (rest : List String)
    (h : env.load file_name = LoadResult.errFileNotFound ∨
         env.load file_name = LoadResult.errUnidentified ∨
         env.load file_name = LoadResult.errPermission) :
    (scanFiles env cfg key_img (file_name :: rest)).writes
      = (scanFiles env cfg key_img rest).writes ∧
    (scanFiles env cfg key_img (file_name :: rest)).aborted
      = (scanFiles env cfg key_img rest).aborted := by
  rcases h with h | h | h <;> simp [scanFiles, h]

/-- C3 witness: a missing candidate followed by a readable one. -/
theorem unreadable_candidate_skipped_witness :
    (scanFiles env0 cfgM keyImg ("missing.png" :: ["same.png"])).writes
      = (scanFiles env0 cfgM keyImg ["same.png"]).writes ∧
    (scanFiles env0 cfgM keyImg ("missing.png" :: ["same.png"])).aborted
      = (scanFiles env0 cfgM keyImg ["same.png"]).aborted :=
  unreadable_candidate_skipped env0 cfgM keyImg "missing.png" ["same.png"]
    (Or.inl rfl)

/-- C4: in compare mode, when descriptor extraction yields no usable
descriptors for either image, or the brute-force matcher raises, the
candidate is treated as no match: no Match Record is written and the
scan continues (not aborted) with the remaining candidates. -/
theorem sift_failure_treated_as_no_match (env : Env) (cfg : RunConfig)
    (key_img tex_img : NormImage) (file_name : String) (rest : List String)
    (hc : cfg.compare = true)
    (hload : env.load file_name = LoadResult.ok tex_img)
    (hfail : env.descriptors key_img = none ∨
      env.descriptors tex_img = none ∨
      ∀ a b, env.descriptors key_img = some a →
        env.descriptors tex_img = some b → env.bfMatch a b = none) :
    (scanFiles env cfg key_img (file_name :: rest)).writes
      = (scanFiles env cfg key_img rest).writes ∧
    (scanFiles env cfg key_img (file_name :: rest)).aborted
      = (scanFiles env cfg key_img rest).aborted := by
  have hms : metricStep env cfg key_img file_name tex_img = [] := by
    unfold metricStep
    rw [hc]
    cases hd1 : env.descriptors key_img with
    | none => simp
    | some a =>
      cases hd2 : env.descriptors tex_img with
      | none => simp
      | some b =>
        rcases hfail with h | h | h
        · rw [hd1] at h; exact absurd h (by simp)
        · rw [hd2] at h; exact absurd h (by simp)
        · simp [h a b hd1 hd2]
  simp [scanFiles, hload, hms]

/-- C4 witness: SIFT finds no keypoints in the key image. -/
theorem sift_failure_treated_as_no_match_witness :
    (scanFiles env0 cfgC keyImg ("same.png" :: [])).writes
      = (scanFiles env0 cfgC keyImg []).writes ∧
    (scanFiles env0 cfgC keyImg ("same.png" :: [])).aborted
      = (scanFiles env0 cfgC keyImg []).aborted :=
  sift_failure_treated_as_no_match env0 cfgC keyImg texSame "same.png" []
    rfl rfl (Or.inl rfl)

lemma metricStep_shape (env : Env) (cfg : RunConfig) (key_img : NormImage)
    (file_name : String) (tex_img : NormImage) :
    ∀ w ∈ metricStep env cfg key_img file_name tex_img,
      w.path = cfg.log_filename ∧
      ((∃ q, w.line = mseLine file_name q) ∨
       (∃ n, w.line = siftLine file_name n)) := by
  intro w hw
  unfold metricStep at hw
  split at hw
  · split at hw
    · split at hw
      · split at hw
        · simp only [List.mem_singleton] at hw
          subst hw
          exact ⟨rfl, Or.inr ⟨_, rfl⟩⟩
        · simp at hw
      · simp at hw
    · simp at hw
  · split at hw
    · split at hw
      · simp only [List.mem_singleton] at hw
        subst hw
        exact ⟨rfl, Or.inl ⟨_, rfl⟩⟩
      · simp at hw
    · simp at hw

lemma scan_writes_shape (env : Env) (cfg : RunConfig) (key_img : NormImage)
    (l : List String) :
    ∀ w ∈ (scanFiles env cfg key_img l).writes,
      w.path = cfg.log_filename ∧
      ((∃ f q, w.line = mseLine f q) ∨ (∃ f n, w.line = siftLine f n)) := by
  induction l with
  | nil => simp [scanFiles]
  | cons f rest ih =>
    intro w hw
    cases hl : env.load f <;> simp only [scanFiles, hl] at hw
    · rcases List.mem_append.mp hw with hw | hw
      · obtain ⟨hp, hsh⟩ := metricStep_shape env cfg key_img f _ w hw
        exact ⟨hp, hsh.elim (fun ⟨q, hq⟩ => Or.inl ⟨f, q, hq⟩)
          (fun ⟨n, hn⟩ => Or.inr ⟨f, n, hn⟩)⟩
      · exact ih w hw
    · exact ih w hw
    · exact ih w hw
    · exact ih w hw
    · simp at hw

/-- C5 counterexample: the sole MSE-mode record written for the concrete
matching candidate is `"same.png 0 \n"`, which is not of the form
`<candidate_path> <score>\n` — there is a second space between the score
and the newline. -/
theorem record_format_counterexample :
    (scanFiles env0 cfgH keyImg ["same.png"]).writes
      = [⟨logPath, "same.png 0 \n"⟩] ∧
    recordForm "same.png" "same.png 0 \n" = false := by
  refine ⟨?_, by decide⟩
  rw [scanFiles_cfgH_eval]

/-- C5 corrected: every Match Record appended by a scan has exactly one
of the two source line shapes — `<path> <mse> \n` in highlowres mode
(a trailing space before the newline) or `<path>  SIFT Matches:<count>\n`
in compare mode (two spaces between the path and the score prefix). -/
theorem log_record_exact_shapes (env : Env) (cfg : RunConfig)
    (key_img : NormImage) (l : List String) :
    ∀ w ∈ (scanFiles env cfg key_img l).writes,
      (∃ f q, w.line = mseLine f q) ∨ (∃ f n, w.line = siftLine f n) :=
  fun w hw => (scan_writes_shape env cfg key_img l w hw).2

/-- C5 corrected witness: the concrete record produced for the matching
candidate. -/
theorem log_record_exact_shapes_witness :
    (∃ f q, (LogWrite.mk logPath "same.png 0 \n").line = mseLine f q) ∨
    (∃ f n, (LogWrite.mk logPath "same.png 0 \n").line = siftLine f n) :=
  log_record_exact_shapes env0 cfgH keyImg ["same.png"]
    ⟨logPath, "same.png 0 \n"⟩ (by rw [scanFiles_cfgH_eval]; simp)

/-- C6 counterexample: a highlowres run over an empty candidate
directory completes, but opens no log file at all — no log file is
created, contradicting "exactly one new log file per run". -/
theorem log_creation_counterexample :
    (image_compare env0 cfgE).map filesOpened = some [] ∧
    (image_compare env0 cfgE).map (fun o => (filesOpened o).length) ≠ some 1 := by
  constructor
  · rfl
  · intro h
    simp only [image_compare] at h
    revert h
    decide

/-- C6 corrected: each run fixes a single timestamp-derived log path;
every append of the scan targets exactly that path (so at most one log
file is created per run, lazily at the first match), and a scan over an
empty candidate list performs no append at all, creating no file. -/
theorem log_single_path_lazy (env : Env) (cfg : RunConfig)
    (key_img : NormImage) (l : List String) (tstamp : String)
    (hname : cfg.log_filename = logName tstamp) :
    (∀ w ∈ (scanFiles env cfg key_img l).writes, w.path = logName tstamp) ∧
    (scanFiles env cfg key_img []).writes = [] := by
  refine ⟨fun w hw => ?_, rfl⟩
  rw [← hname]
  exact (scan_writes_shape env cfg key_img l w hw).1

/-- C6 corrected witness: the concrete matching run appends only to the
timestamp-derived path, and the empty run appends nothing. -/
theorem log_single_path_lazy_witness :
    (LogWrite.mk logPath "same.png 0 \n").path
      = logName "01_01_25_00_00_00AM" ∧
    (scanFiles env0 cfgH keyImg []).writes = [] :=
  ⟨(log_single_path_lazy env0 cfgH keyImg ["same.png"] "01_01_25_00_00_00AM"
      rfl).1 ⟨logPath, "same.png 0 \n"⟩ (by rw [scanFiles_cfgH_eval]; simp),
   (log_single_path_lazy env0 cfgH keyImg [] "01_01_25_00_00_00AM" rfl).2⟩

/-- C7 counterexample: the sole candidate is a missing file, so it is
skipped (zero candidates were not skipped), yet the processed counter
ends at 1 — `processed += 1` runs before the `try` block. -/
theorem processed_count_counterexample :
    env0.load "missing.png" = LoadResult.errFileNotFound ∧
    (scanFiles env0 cfgM keyImg ["missing.png"]).writes = [] ∧
    (scanFiles env0 cfgM keyImg ["missing.png"]).processed = 1 :=
  ⟨rfl, rfl, rfl⟩

/-- C7 corrected: the processed counter counts every candidate iterated,
skipped or not — when the scan does not die on an uncaught exception it
ends equal to the chunk's total length. -/
theorem processed_counts_every_candidate (env : Env) (cfg : RunConfig)
    (key_img : NormImage) (l : List String)
    (h : (scanFiles env cfg key_img l).aborted = false) :
    (scanFiles env cfg key_img l).processed = l.length := by
  induction l with
  | nil => rfl
  | cons f rest ih =>
    cases hl : env.load f <;> simp only [scanFiles, hl] at h ⊢ <;>
      simp_all [List.length_cons]

/-- C7 corrected witness: the skipped-only run processed 1 = length. -/
theorem processed_counts_every_candidate_witness :
    (scanFiles env0 cfgM keyImg ["missing.png"]).processed
      = (["missing.png"] : List String).length :=
  processed_counts_every_candidate env0 cfgM keyImg ["missing.png"] rfl

lemma metricStep_compare_ignores_highlowres (env : Env) (cfg : RunConfig)
    (key_img : NormImage) (file_name : String) (tex_img : NormImage)
    (hc : cfg.compare = true) :
    metricStep env { cfg with highlowres := false } key_img file_name tex_img
      = metricStep env cfg key_img file_name tex_img := by
  cases cfg
  simp only at hc
  subst hc
  rfl

/-- C10: metric branch exclusivity — when the compare flag is set the
scan behaves exactly as if highlowres were false (the MSE branch is
unreachable), and when both flags are false no Match Record is ever
written for any candidate. -/
theorem metric_branch_exclusivity (env : Env) (cfg : RunConfig)
    (key_img : NormImage) (l : List String) :
    (cfg.compare = true →
      scanFiles env cfg key_img l
        = scanFiles env { cfg with highlowres := false } key_img l) ∧
    (cfg.compare = false → cfg.highlowres = false →
      (scanFiles env cfg key_img l).writes = []) := by
  constructor
  · intro hc
    induction l with
    | nil => rfl
    | cons f rest ih =>
      cases hl : env.load f <;>
        simp only [scanFiles, hl, ih,
          metricStep_compare_ignores_highlowres env cfg key_img f _ hc]
  · intro hc hh
    induction l with
    | nil => rfl
    | cons f rest ih =>
      cases hl : env.load f <;>
        simp only [scanFiles, hl, ih, metricStep, hc, hh] <;> simp

/-- C10 witness: with both flags set the scan equals the compare-only
scan, and with both flags clear the scan writes nothing. -/
theorem metric_branch_exclusivity_witness :
    scanFiles env0 cfgBoth keyImg ["same.png"]
      = scanFiles env0 { cfgBoth with highlowres := false } keyImg
          ["same.png"] ∧
    (scanFiles env0 cfgNone keyImg ["same.png"]).writes = [] :=
  ⟨(metric_branch_exclusivity env0 cfgBoth keyImg ["same.png"]).1 rfl,
   (metric_branch_exclusivity env0 cfgNone keyImg ["same.png"]).2 rfl rfl⟩

/-- C8: for worker counts 2–4, the log path is fixed from the run's
start timestamp before partitioning, and every started worker receives
the identical log path and a full copy of the run configuration, with
only `filename_list` replaced by that worker's chunk. -/
theorem worker_configs_identical (tstamp : String) (d : RunConfig)
    (l : List String) (W : Nat) (hW : W = 2 ∨ W = 3 ∨ W = 4) :
    (mainSpawn tstamp d l W).length = W ∧
    (∀ w ∈ mainSpawn tstamp d l W,
      w.log_filename = logName tstamp ∧
      w.compare_file = d.compare_file ∧
      w.verbose = d.verbose ∧
      w.compare = d.compare ∧
      w.highlowres = d.highlowres) ∧
    (∀ j, j < W → (mainSpawn tstamp d l W).getD j d =
      { d with log_filename := logName tstamp,
               filename_list := (filename_list_chunks l W).getD j [] }) := by
  rcases hW with rfl | rfl | rfl <;>
    refine ⟨by simp [mainSpawn, multithreading_compare], ?_, ?_⟩ <;>
    first
    | · intro w hw
        simp only [mainSpawn, multithreading_compare] at hw
        norm_num at hw
        rcases hw with rfl | rfl | rfl | rfl <;>
          exact ⟨rfl, rfl, rfl, rfl, rfl⟩
    | · intro j hj
        interval_cases j <;> rfl

/-- C8 witness: four workers over five candidates; worker 0's
configuration is the full copy with chunk 0 as its file list. -/
theorem worker_configs_identical_witness :
    (mainSpawn "01_01_25_00_00_00AM" cfgH ["a", "b", "c", "d", "e"] 4).length
      = 4 ∧
    (mainSpawn "01_01_25_00_00_00AM" cfgH ["a", "b", "c", "d", "e"] 4).getD
        0 cfgH
      = { cfgH with
            log_filename := logName "01_01_25_00_00_00AM",
            filename_list :=
              (filename_list_chunks ["a", "b", "c", "d", "e"] 4).getD 0 [] } :=
  ⟨(worker_configs_identical "01_01_25_00_00_00AM" cfgH ["a", "b", "c", "d", "e"]
      4 (Or.inr (Or.inr rfl))).1,
   (worker_configs_identical "01_01_25_00_00_00AM" cfgH ["a", "b", "c", "d", "e"]
      4 (Or.inr (Or.inr rfl))).2.2 0 (by norm_num)⟩
